import Mathlib

/-!
Shallow embedding of the bookstore checkout module (`src/bookstore.js`, final
revision) in Lean 4.

Modelling conventions:
* JavaScript numbers are modelled as rationals (`ℚ`); `x.toFixed(2)` followed
  by `parseFloat` is modelled as half-up rounding to two decimals (`round2`),
  matching the specification's "standard half-up rounding".
* The module-global mutable state (`shoppingCart`, `bookDatabase`, `emailLog`)
  is passed explicitly as a `StoreState`.
* `Math.random` and `Date.now()` are injected: the payment accept/reject draw
  becomes a `Bool` parameter, the clock a `ℕ` parameter and the random id
  suffix a `String` parameter.
* JavaScript exceptions become `Except String`; a `try`/`catch` block becomes
  a `match` on the `Except` value, so no exception can escape an orchestrator.
* A cart object is modelled as an association list from book id to cart line;
  object key lookup and in-place update act on the first matching key.
-/

namespace Bookstore

/-- Half-up rounding to two decimal places: `parseFloat(x.toFixed(2))`. -/
def round2 (q : ℚ) : ℚ := ⌊q * 100 + 1/2⌋ / 100

/-- A catalog item of `bookDatabase`. -/
structure Book where
  id : ℕ
  title : String
  author : String
  price : ℚ
  stock : ℤ
deriving Repr, DecidableEq

/-- The seeded catalog (`bookDatabase` in the source). -/
def bookDatabase : List Book :=
  [⟨1, "The Great Gatsby", "F. Scott Fitzgerald", 12.99, 5⟩,
   ⟨2, "To Kill a Mockingbird", "Harper Lee", 14.99, 3⟩,
   ⟨3, "1984", "George Orwell", 13.99, 0⟩,
   ⟨4, "Pride and Prejudice", "Jane Austen", 11.99, 7⟩,
   ⟨5, "The Catcher in the Rye", "J.D. Salinger", 12.49, 4⟩,
   ⟨6, "Brave New World", "Aldous Huxley", 13.49, 2⟩]

/-- One line of the shopping cart: a snapshot copy of the book plus a
quantity (`{ book: {...book}, quantity }` in the source). -/
structure CartLine where
  book : Book
  quantity : ℤ
deriving Repr, DecidableEq

/-- The shopping cart object: association list keyed by book id. -/
abbrev Cart := List (ℕ × CartLine)

/-- ASCII lower-casing, `String.prototype.toLowerCase`. -/
def strLower (s : String) : String := ⟨s.data.map Char.toLower⟩

/-- ASCII upper-casing, `String.prototype.toUpperCase`. -/
def strUpper (s : String) : String := ⟨s.data.map Char.toUpper⟩

/-- `haystack.includes(needle)` on character lists. -/
def infixOf : List Char → List Char → Bool
  | pat, [] => pat.isEmpty
  | pat, c :: rest => pat.isPrefixOf (c :: rest) || infixOf pat rest

/-- `bookDatabase.find((b) => b.id === bookId)`. -/
def findBook (db : List Book) (bookId : ℕ) : Option Book :=
  db.find? (fun b => b.id == bookId)

/-- `searchBooks`: case-insensitive substring match on title or author;
empty query gives the empty list. -/
def searchBooks (query : String) (db : List Book) : List Book :=
  if query = "" then []
  else
    let lq := strLower query
    db.filter (fun b =>
      infixOf lq.data (strLower b.title).data ||
      infixOf lq.data (strLower b.author).data)

/-- `shoppingCart[bookId] ? shoppingCart[bookId].quantity : 0`. -/
def cartQty (cart : Cart) (bookId : ℕ) : ℤ :=
  match cart.lookup bookId with
  | some line => line.quantity
  | none => 0

/-- `shoppingCart[bookId].quantity += quantity` — bump the quantity of the
(first) line with the given key. -/
def bumpQty : Cart → ℕ → ℤ → Cart
  | [], _, _ => []
  | (i, line) :: rest, bookId, q =>
    if i = bookId then (i, { line with quantity := line.quantity + q }) :: rest
    else (i, line) :: bumpQty rest bookId q

/-- `addToCart(bookId, quantity)` run against an explicit catalog and cart.
The first component is the call's outcome (`ok` with the returned cart copy,
or the thrown error message); the second component is the stored
`shoppingCart` after the call returns or throws. -/
def addToCart (bookId : ℕ) (quantity : ℤ) (db : List Book) (cart : Cart) :
    Except String Cart × Cart :=
  match findBook db bookId with
  | none => (.error ("Book with ID " ++ toString bookId ++ " not found"), cart)
  | some book =>
    if quantity ≤ 0 then (.error "Quantity must be greater than 0", cart)
    else
      let currentQuantity := cartQty cart bookId
      let totalQuantity := currentQuantity + quantity
      if book.stock < totalQuantity then
        (.error ("Only " ++ toString book.stock ++ " copies available"), cart)
      else
        let cart' :=
          if (cart.lookup bookId).isSome then bumpQty cart bookId quantity
          else cart ++ [(bookId, ⟨book, quantity⟩)]
        (.ok cart', cart')

/-- The un-rounded subtotal loop shared by both pricing functions; a line is
skipped when its quantity is `0` (falsy in `if (item && item.book &&
item.quantity)`). -/
def rawSubtotal (cart : Cart) : ℚ :=
  (cart.map (fun pr =>
    if pr.2.quantity = 0 then 0 else pr.2.book.price * (pr.2.quantity : ℚ))).sum

/-- `calculateTotal(cart)`: subtotal plus 10% tax, rounded once at the end
(`parseFloat(total.toFixed(2))`). -/
def calculateTotal (cart : Cart) : ℚ :=
  let subtotal := rawSubtotal cart
  round2 (subtotal + subtotal * (1/10))

/-- Decimal digit characters of `n`, most significant first, by repeated
division (fuel-based so that it reduces definitionally). -/
def natDigitsAux : ℕ → ℕ → List Char
  | 0, _ => []
  | fuel + 1, n =>
    if n = 0 then []
    else natDigitsAux fuel (n / 10) ++ [Nat.digitChar (n % 10)]

/-- Decimal rendering of a natural number, as in template-string
interpolation of `Date.now()`. -/
def natDecimal (n : ℕ) : String :=
  if n = 0 then "0" else ⟨natDigitsAux n n⟩

/-- The transaction id `` `TXN-${Date.now()}-${random suffix}` ``. -/
def mkTxnId (now : ℕ) (rand : String) : String :=
  "TXN-" ++ natDecimal now ++ "-" ++ rand

/-- Result object of `processPayment`. -/
structure PaymentResult where
  success : Bool
  transactionId : Option String
deriving Repr, DecidableEq

/-- `processPayment(cartTotal, paymentMethod)` with the random draw
(`Math.random() > 0.2`) injected as `paySuccess` and the id components
injected as `now` and `rand`. -/
def processPayment (cartTotal : ℚ) (paymentMethod : String)
    (paySuccess : Bool) (now : ℕ) (rand : String) :
    Except String PaymentResult :=
  if cartTotal ≤ 0 then .error "Invalid cart total"
  else if paymentMethod ∉ ["credit", "debit", "paypal"] then
    .error "Invalid payment method"
  else if paySuccess then .ok ⟨true, some (mkTxnId now rand)⟩
  else .ok ⟨false, none⟩

/-- The InsufficientStock message thrown by `updateInventory`. -/
def insufficientStockMsg (title : String) (available requested : ℤ) : String :=
  "Insufficient stock for \"" ++ title ++ "\". Available: " ++
    toString available ++ ", Requested: " ++ toString requested

/-- Phase one of `updateInventory`: validate every cart line against the
current live stock, returning the first failure message if any. -/
def validateInventory : Cart → List Book → Option String
  | [], _ => none
  | (bookId, line) :: rest, db =>
    match findBook db bookId with
    | none => some ("Book with ID " ++ toString bookId ++ " not found in inventory")
    | some book =>
      if book.stock < line.quantity then
        some (insufficientStockMsg book.title book.stock line.quantity)
      else validateInventory rest db

/-- `book.stock -= quantity` on the first catalog entry with the given id. -/
def applyLine : List Book → ℕ → ℤ → List Book
  | [], _, _ => []
  | b :: rest, bookId, q =>
    if b.id = bookId then { b with stock := b.stock - q } :: rest
    else b :: applyLine rest bookId q

/-- Phase two of `updateInventory`: decrement every line's quantity and
record the new stock levels. The `none` branch of the lookup is unreachable
once phase one has passed. -/
def applyInventory : Cart → List Book → List (ℕ × ℤ) × List Book
  | [], db => ([], db)
  | (bookId, line) :: rest, db =>
    match findBook db bookId with
    | none => applyInventory rest db
    | some book =>
      let next := applyInventory rest (applyLine db bookId line.quantity)
      ((bookId, book.stock - line.quantity) :: next.1, next.2)

/-- `updateInventory(cart)`: validate all lines, then apply all decrements;
a validation failure throws and leaves the catalog untouched. -/
def updateInventory (cart : Cart) (db : List Book) :
    Except String (List (ℕ × ℤ) × List Book) :=
  match validateInventory cart db with
  | some e => .error e
  | none => .ok (applyInventory cart db)

/-- A `couponDatabase` entry. -/
structure Coupon where
  ctype : String
  value : ℚ
  minPurchase : ℚ
deriving Repr, DecidableEq

/-- The static coupon table, keyed by upper-case code. -/
def couponDatabase (code : String) : Option Coupon :=
  if code = "SAVE10" then some ⟨"percentage", 10, 0⟩
  else if code = "SAVE20" then some ⟨"percentage", 20, 50⟩
  else if code = "FLAT5" then some ⟨"fixed", 5, 20⟩
  else if code = "FREESHIP" then some ⟨"free_shipping", 0, 0⟩
  else none

/-- Result object of `applyCoupon`; fields that are absent (undefined, hence
falsy) in a source branch are modelled as `false` / `none`. -/
structure CouponResult where
  valid : Bool
  discount : ℚ
  freeShipping : Bool
  ctype : Option String
  message : String
deriving Repr, DecidableEq

/-- `applyCoupon(couponCode, subtotal)`; `none` and `some ""` both model a
falsy `couponCode`. -/
def applyCoupon (couponCode : Option String) (subtotal : ℚ) : CouponResult :=
  match couponCode with
  | none => ⟨false, 0, false, none, "No coupon provided"⟩
  | some raw =>
    if raw = "" then ⟨false, 0, false, none, "No coupon provided"⟩
    else
      match couponDatabase (strUpper raw) with
      | none => ⟨false, 0, false, none, "Invalid coupon code"⟩
      | some coupon =>
        if subtotal < coupon.minPurchase then
          ⟨false, 0, false, none,
            "Minimum purchase of " ++ toString coupon.minPurchase ++ " required"⟩
        else
          let discount :=
            if coupon.ctype = "percentage" then
              round2 (subtotal * (coupon.value / 100))
            else if coupon.ctype = "fixed" then coupon.value
            else 0
          ⟨true, discount, coupon.ctype = "free_shipping", some coupon.ctype,
            "Coupon applied successfully"⟩

/-- A `shippingOptions` entry. -/
structure Shipping where
  name : String
  cost : ℚ
  days : String
deriving Repr, DecidableEq

/-- The `standard` shipping option, also the fallback. -/
def standardShipping : Shipping := ⟨"Standard Shipping", 5.99, "5-7"⟩

/-- The static shipping table. -/
def shippingOptions (key : String) : Option Shipping :=
  if key = "standard" then some standardShipping
  else if key = "express" then some ⟨"Express Shipping", 12.99, "2-3"⟩
  else if key = "overnight" then some ⟨"Overnight Shipping", 24.99, "1"⟩
  else if key = "free" then some ⟨"Free Shipping", 0, "7-10"⟩
  else none

/-- The price breakdown returned by `calculateTotalWithExtras`. -/
structure Breakdown where
  subtotal : ℚ
  discount : ℚ
  tax : ℚ
  shipping : ℚ
  shippingMethod : String
  total : ℚ
  couponApplied : Bool
  couponMessage : String
deriving Repr, DecidableEq

/-- `calculateTotalWithExtras(cart, couponCode, shippingMethod)`. -/
def calculateTotalWithExtras (cart : Cart) (couponCode : Option String)
    (shippingMethod : String) : Breakdown :=
  let subtotal := round2 (rawSubtotal cart)
  let couponResult := applyCoupon couponCode subtotal
  let discount := if couponResult.valid then couponResult.discount else 0
  let afterDiscount := subtotal - discount
  let tax := round2 (afterDiscount * (1/10))
  let ship := (shippingOptions shippingMethod).getD standardShipping
  let shippingCost := if couponResult.freeShipping then 0 else ship.cost
  let total := round2 (afterDiscount + tax + shippingCost)
  ⟨subtotal, discount, tax, shippingCost, ship.name, total,
    couponResult.valid, couponResult.message⟩

/-- An `emailLog` record. -/
structure Email where
  id : String
  recipient : String
  subject : String
  status : String
deriving Repr, DecidableEq

/-- Result object of `sendEmailNotification`. -/
structure EmailResult where
  sent : Bool
  emailId : Option String
  error : Option String
deriving Repr, DecidableEq

/-- `sendEmailNotification(recipient, subject, orderDetails)`: appends to the
log only when the recipient contains an `@`. -/
def sendEmailNotification (recipient subject : String) (now : ℕ)
    (log : List Email) : EmailResult × List Email :=
  if recipient.data.contains '@' then
    let email : Email := ⟨"EMAIL-" ++ natDecimal now, recipient, subject, "sent"⟩
    (⟨true, some email.id, none⟩, log ++ [email])
  else
    (⟨false, none, some "Invalid email address"⟩, log)

/-- The module-global mutable state. -/
structure StoreState where
  shoppingCart : Cart
  bookDatabase : List Book
  emailLog : List Email
deriving Repr, DecidableEq

/-- Result object of `completePurchase`; fields absent on the failure path
are modelled as `none`. -/
structure PurchaseResult where
  success : Bool
  orderId : Option String
  transactionId : Option String
  items : Option Cart
  total : Option ℚ
  inventoryUpdated : Option (List (ℕ × ℤ))
  error : Option String
  message : String
deriving Repr, DecidableEq

/-- The uniform failure object built in the `catch` block of
`completePurchase`. -/
def failResult (e : String) : PurchaseResult :=
  ⟨false, none, none, none, none, none, some e, "Purchase failed"⟩

/-- `completePurchase(searchQuery, bookId, quantity, paymentMethod)`: the
basic orchestrator. Every thrown error is caught at the orchestrator
boundary, which restores the cart to its pre-attempt snapshot. -/
def completePurchase (searchQuery : String) (bookId : ℕ) (quantity : ℤ)
    (paymentMethod : String) (paySuccess : Bool) (now : ℕ) (rand : String)
    (st : StoreState) : PurchaseResult × StoreState :=
  if (searchBooks searchQuery st.bookDatabase).isEmpty then
    (failResult "No books found matching your search",
      { st with shoppingCart := st.shoppingCart })
  else
    match addToCart bookId quantity st.bookDatabase [] with
    | (.error e, _) => (failResult e, { st with shoppingCart := st.shoppingCart })
    | (.ok cart, _) =>
      if calculateTotal cart ≤ 0 then
        (failResult "Invalid cart total", { st with shoppingCart := st.shoppingCart })
      else
        match processPayment (calculateTotal cart) paymentMethod paySuccess now rand with
        | .error e => (failResult e, { st with shoppingCart := st.shoppingCart })
        | .ok paymentResult =>
          if paymentResult.success = false then
            (failResult "Payment processing failed. Please try again.",
              { st with shoppingCart := st.shoppingCart })
          else
            match updateInventory cart st.bookDatabase with
            | .error e => (failResult e, { st with shoppingCart := st.shoppingCart })
            | .ok (updates, db') =>
              (⟨true, some ("ORD-" ++ natDecimal now), paymentResult.transactionId,
                  some cart, some (calculateTotal cart), some updates, none,
                  "Purchase completed successfully!"⟩,
                { st with shoppingCart := [], bookDatabase := db' })

/-- The `options` object of `completePurchaseWithExtras`. -/
structure PurchaseOptions where
  couponCode : Option String := none
  shippingMethod : String := "standard"
  customerEmail : Option String := none
deriving Repr, DecidableEq

/-- Result object of `completePurchaseWithExtras`. -/
structure PurchaseResultX where
  success : Bool
  orderId : Option String
  transactionId : Option String
  items : Option Cart
  pricing : Option Breakdown
  inventoryUpdated : Option (List (ℕ × ℤ))
  emailSent : Bool
  emailId : Option String
  error : Option String
  message : String
deriving Repr, DecidableEq

/-- The uniform failure object built in the `catch` block of
`completePurchaseWithExtras`. -/
def failResultX (e : String) : PurchaseResultX :=
  ⟨false, none, none, none, none, none, false, none, some e, "Purchase failed"⟩

/-- Step 6 of `completePurchaseWithExtras`: send the confirmation email only
when a truthy recipient was supplied; an invalid address yields `sent=false`
without failing the purchase. -/
def emailNotifyStep (customerEmail : Option String) (now : ℕ)
    (log : List Email) : Option EmailResult × List Email :=
  match customerEmail with
  | none => (none, log)
  | some addr =>
    if addr = "" then (none, log)
    else
      (some (sendEmailNotification addr "Order Confirmation" now log).1,
        (sendEmailNotification addr "Order Confirmation" now log).2)

/-- `completePurchaseWithExtras(searchQuery, bookId, quantity,
paymentMethod, options)`: the extended orchestrator with coupon, shipping
and email notification. -/
def completePurchaseWithExtras (searchQuery : String) (bookId : ℕ)
    (quantity : ℤ) (paymentMethod : String) (opts : PurchaseOptions)
    (paySuccess : Bool) (now : ℕ) (rand : String) (st : StoreState) :
    PurchaseResultX × StoreState :=
  if (searchBooks searchQuery st.bookDatabase).isEmpty then
    (failResultX "No books found matching your search",
      { st with shoppingCart := st.shoppingCart })
  else
    match addToCart bookId quantity st.bookDatabase [] with
    | (.error e, _) => (failResultX e, { st with shoppingCart := st.shoppingCart })
    | (.ok cart, _) =>
      if (calculateTotalWithExtras cart opts.couponCode opts.shippingMethod).total ≤ 0 then
        (failResultX "Invalid cart total", { st with shoppingCart := st.shoppingCart })
      else
        match processPayment
            (calculateTotalWithExtras cart opts.couponCode opts.shippingMethod).total
            paymentMethod paySuccess now rand with
        | .error e => (failResultX e, { st with shoppingCart := st.shoppingCart })
        | .ok paymentResult =>
          if paymentResult.success = false then
            (failResultX "Payment processing failed. Please try again.",
              { st with shoppingCart := st.shoppingCart })
          else
            match updateInventory cart st.bookDatabase with
            | .error e => (failResultX e, { st with shoppingCart := st.shoppingCart })
            | .ok (updates, db') =>
              match emailNotifyStep opts.customerEmail now st.emailLog with
              | (emailResult, log') =>
                (⟨true, some ("ORD-" ++ natDecimal now), paymentResult.transactionId,
                    some cart,
                    some (calculateTotalWithExtras cart opts.couponCode opts.shippingMethod),
                    some updates,
                    (emailResult.map (fun r => r.sent)).getD false,
                    emailResult.bind (fun r => r.emailId), none,
                    "Purchase completed successfully!"⟩,
                  { shoppingCart := [], bookDatabase := db', emailLog := log' })

/-! ### Fixtures and characterization helpers -/

/-- The seeded catalog entry with id 1. -/
def gatsbyBook : Book := ⟨1, "The Great Gatsby", "F. Scott Fitzgerald", 12.99, 5⟩

/-- The seeded catalog entry with id 2. -/
def mockingbirdBook : Book := ⟨2, "To Kill a Mockingbird", "Harper Lee", 14.99, 3⟩

/-- A cart holding one copy of the 12.99 book. -/
def gatsbyCart : Cart := [(1, ⟨gatsbyBook, 1⟩)]

/-- A cart holding the 12.99 and the 14.99 book, one copy each. -/
def twoBookCart : Cart := [(1, ⟨gatsbyBook, 1⟩), (2, ⟨mockingbirdBook, 1⟩)]

/-- The store state at module load: empty cart, seeded catalog, empty log. -/
def initialState : StoreState := ⟨[], bookDatabase, []⟩

/-- Value of a most-significant-first list of decimal digit characters;
reading function used to invert `natDigitsAux`. -/
def digitsVal (l : List Char) : ℕ :=
  l.foldl (fun acc c => acc * 10 + (c.toNat - 48)) 0

/-- Spec-side characterization of one inventory commit: the stock of a book
drops by the quantity of the (first) cart line keyed by its id. -/
def commitBook (cart : Cart) (b : Book) : Book :=
  match cart.lookup b.id with
  | some line => { b with stock := b.stock - line.quantity }
  | none => b

/-- Cart lines whose snapshot price is an exact number of cents. -/
def centPrices (cart : Cart) : Prop :=
  ∀ pr ∈ cart, ∃ m : ℤ, (m : ℚ) = pr.2.book.price * 100

/-- Decidable equality for `Except`, used to evaluate call outcomes. -/
instance {ε α : Type} [DecidableEq ε] [DecidableEq α] : DecidableEq (Except ε α) :=
  fun x y =>
    match x, y with
    | .ok a, .ok b =>
      if h : a = b then isTrue (by rw [h]) else isFalse (by intro hh; cases hh; exact h rfl)
    | .error e, .error f =>
      if h : e = f then isTrue (by rw [h]) else isFalse (by intro hh; cases hh; exact h rfl)
    | .ok _, .error _ => isFalse (by intro hh; cases hh)
    | .error _, .ok _ => isFalse (by intro hh; cases hh)

/-! ### Rounding lemmas -/

set_option maxRecDepth 10000

lemma round2_nonneg {q : ℚ} (h : 0 ≤ q) : 0 ≤ round2 q := by
  unfold round2
  have h1 : (0 : ℤ) ≤ ⌊q * 100 + 1/2⌋ := by
    rw [Int.le_floor]
    push_cast
    linarith
  positivity

lemma round2_le_half (q : ℚ) : round2 q ≤ q + 1/200 := by
  unfold round2
  have h1 : (⌊q * 100 + 1/2⌋ : ℚ) ≤ q * 100 + 1/2 := Int.floor_le _
  linarith

lemma round2_cents {q : ℚ} {m : ℤ} (h : (m : ℚ) = q * 100) : round2 q = q := by
  unfold round2
  rw [← h, show ((m : ℚ) + 1/2) = (m : ℚ) + 1/2 from rfl]
  rw [Int.floor_int_add]
  have h2 : ⌊(1/2 : ℚ)⌋ = 0 := by norm_num
  rw [h2]
  push_cast
  rw [h]
  field_simp

lemma round2_den (q : ℚ) : ∃ m : ℤ, (m : ℚ) = round2 q * 100 := by
  refine ⟨⌊q * 100 + 1/2⌋, ?_⟩
  unfold round2
  field_simp

lemma round2_tenth_le {s : ℚ} {m : ℤ} (hm : (m : ℚ) = s * 100) (h0 : 0 ≤ s) :
    round2 (s * (10/100)) ≤ s := by
  have hm0 : (0 : ℚ) ≤ (m : ℚ) := by rw [hm]; positivity
  have hm0' : (0 : ℤ) ≤ m := by exact_mod_cast hm0
  unfold round2
  have harg : s * (10/100) * 100 + 1/2 = (m : ℚ) / 10 + 1/2 := by
    field_simp
    linarith [hm]
  rw [harg]
  have hfl : ⌊(m : ℚ) / 10 + 1/2⌋ ≤ m := by
    rw [← Int.lt_add_one_iff, Int.floor_lt]
    push_cast
    linarith
  have : (⌊(m : ℚ) / 10 + 1/2⌋ : ℚ) ≤ (m : ℚ) := by exact_mod_cast hfl
  have hs : s = (m : ℚ) / 100 := by rw [hm]; field_simp
  rw [hs]
  linarith

lemma round2_add_tenth {s : ℚ} {m : ℤ} (h : (m : ℚ) = s * 100) :
    round2 (s + s * (1/10)) = s + round2 (s * (1/10)) := by
  unfold round2
  have h1 : (s + s * (1/10)) * 100 + 1/2 = (m : ℚ) + (s * (1/10) * 100 + 1/2) := by
    rw [h]; ring
  rw [h1, Int.floor_int_add]
  push_cast
  have hs : s = (m : ℚ) / 100 := by rw [h]; field_simp
  rw [hs]
  ring

lemma rawSubtotal_cents {cart : Cart} (h : centPrices cart) :
    ∃ M : ℤ, (M : ℚ) = rawSubtotal cart * 100 := by
  induction cart with
  | nil => exact ⟨0, by simp [rawSubtotal]⟩
  | cons pr rest ih =>
    obtain ⟨M, hM⟩ := ih (fun p hp => h p (List.mem_cons_of_mem _ hp))
    obtain ⟨m, hm⟩ := h pr (List.mem_cons_self _ _)
    by_cases hq : pr.2.quantity = 0
    · exact ⟨M, by simpa [rawSubtotal, hq] using hM⟩
    · refine ⟨m * pr.2.quantity + M, ?_⟩
      simp only [rawSubtotal, List.map_cons, List.sum_cons, if_neg hq]
      push_cast
      rw [hm]
      simp only [rawSubtotal] at hM
      rw [hM]
      ring

lemma rawSubtotal_nonneg {cart : Cart}
    (h : ∀ pr ∈ cart, 0 ≤ pr.2.book.price ∧ 0 ≤ pr.2.quantity) :
    0 ≤ rawSubtotal cart := by
  unfold rawSubtotal
  apply List.sum_nonneg
  intro x hx
  obtain ⟨pr, hpr, rfl⟩ := List.mem_map.mp hx
  by_cases hq : pr.2.quantity = 0
  · simp [hq]
  · have := h pr hpr
    have : (0 : ℚ) ≤ (pr.2.quantity : ℚ) := by exact_mod_cast this.2
    simp only [if_neg hq]
    have hp := (h pr hpr).1
    positivity

/-! ### C4: coupon resolver -/

/-- C4: `applyCoupon(code, subtotal)` returns valid=false with discount 0 when
no code is given, when the (case-insensitively matched) code is unknown, or
when the subtotal is below the coupon's minimum; otherwise valid=true with
discount `round2(subtotal*value/100)` for percentage coupons, the fixed value
for fixed coupons, 0 for free-shipping coupons, and freeShipping=true exactly
for free-shipping coupons; including the four reference examples. -/
theorem applyCoupon_spec :
    (∀ s : ℚ, (applyCoupon none s).valid = false ∧ (applyCoupon none s).discount = 0) ∧
    (∀ c s, couponDatabase (strUpper c) = none →
      (applyCoupon (some c) s).valid = false ∧ (applyCoupon (some c) s).discount = 0) ∧
    (∀ c s cp, couponDatabase (strUpper c) = some cp → s < cp.minPurchase →
      (applyCoupon (some c) s).valid = false ∧ (applyCoupon (some c) s).discount = 0) ∧
    (∀ c s cp, couponDatabase (strUpper c) = some cp → cp.minPurchase ≤ s →
      (applyCoupon (some c) s).valid = true ∧
      (applyCoupon (some c) s).discount =
        (if cp.ctype = "percentage" then round2 (s * (cp.value / 100))
          else if cp.ctype = "fixed" then cp.value else 0) ∧
      ((applyCoupon (some c) s).freeShipping = true ↔ cp.ctype = "free_shipping")) ∧
    ((applyCoupon (some "SAVE10") 100).valid = true ∧
      (applyCoupon (some "SAVE10") 100).discount = 10) ∧
    (applyCoupon (some "SAVE20") 30).valid = false ∧
    (applyCoupon (some "FLAT5") 30).discount = 5 ∧
    (applyCoupon (some "FREESHIP") 50).freeShipping = true := by
  refine ⟨?_, ?_, ?_, ?_, ?_, ?_, ?_, ?_⟩
  · intro s; exact ⟨rfl, rfl⟩
  · intro c s h
    rcases eq_or_ne c "" with rfl | hc
    · exact ⟨rfl, rfl⟩
    · simp [applyCoupon, hc, h]
  · intro c s cp h hlt
    rcases eq_or_ne c "" with rfl | hc
    · rw [show couponDatabase (strUpper "") = none from rfl] at h; cases h
    · simp [applyCoupon, hc, h, hlt]
  · intro c s cp h hge
    rcases eq_or_ne c "" with rfl | hc
    · rw [show couponDatabase (strUpper "") = none from rfl] at h; cases h
    · have hnlt : ¬ s < cp.minPurchase := not_lt.mpr hge
      refine ⟨?_, ?_, ?_⟩ <;> simp [applyCoupon, hc, h, hnlt]
  · exact ⟨by with_unfolding_all decide, by with_unfolding_all decide⟩
  · with_unfolding_all decide
  · with_unfolding_all decide
  · with_unfolding_all decide

/-- Witness for C4 at a concrete coupon and subtotal. -/
theorem applyCoupon_spec_witness :
    couponDatabase (strUpper "FLAT5") = some ⟨"fixed", 5, 20⟩ ∧
    (⟨"fixed", 5, 20⟩ : Coupon).minPurchase ≤ 30 ∧
    (applyCoupon (some "FLAT5") 30).valid = true :=
  ⟨rfl, by norm_num,
    (applyCoupon_spec.2.2.2.1 "FLAT5" 30 ⟨"fixed", 5, 20⟩ rfl (by norm_num)).1⟩

/-! ### C3: extended pricing algorithm -/

/-- C3: `calculateTotalWithExtras` follows the 7-step pricing algorithm:
rounded subtotal, coupon discount, tax `round2(afterDiscount * 0.10)`,
shipping resolved with unknown keys defaulting to standard, and
`total = round2(afterDiscount + tax + shippingCost)`; for the 12.99 cart with
SAVE10 and standard shipping it returns subtotal 12.99, discount 1.30 and
total 18.85. -/
theorem calculateTotalWithExtras_pricing :
    (∀ cart code ship,
      (calculateTotalWithExtras cart code ship).subtotal = round2 (rawSubtotal cart) ∧
      (calculateTotalWithExtras cart code ship).discount =
        (if (applyCoupon code (round2 (rawSubtotal cart))).valid then
          (applyCoupon code (round2 (rawSubtotal cart))).discount else 0) ∧
      (calculateTotalWithExtras cart code ship).tax =
        round2 (((calculateTotalWithExtras cart code ship).subtotal -
          (calculateTotalWithExtras cart code ship).discount) * (1/10)) ∧
      (calculateTotalWithExtras cart code ship).shipping =
        (if (applyCoupon code (round2 (rawSubtotal cart))).freeShipping then 0
          else ((shippingOptions ship).getD standardShipping).cost) ∧
      (calculateTotalWithExtras cart code ship).total =
        round2 ((calculateTotalWithExtras cart code ship).subtotal -
          (calculateTotalWithExtras cart code ship).discount +
          (calculateTotalWithExtras cart code ship).tax +
          (calculateTotalWithExtras cart code ship).shipping)) ∧
    (∀ ship, shippingOptions ship = none → ∀ cart code,
      (calculateTotalWithExtras cart code ship).shippingMethod = standardShipping.name ∧
      ((applyCoupon code (round2 (rawSubtotal cart))).freeShipping = false →
        (calculateTotalWithExtras cart code ship).shipping = standardShipping.cost)) ∧
    (calculateTotalWithExtras gatsbyCart (some "SAVE10") "standard").subtotal = 12.99 ∧
    (calculateTotalWithExtras gatsbyCart (some "SAVE10") "standard").discount = 1.30 ∧
    (calculateTotalWithExtras gatsbyCart (some "SAVE10") "standard").total = 18.85 := by
  refine ⟨?_, ?_, ?_, ?_, ?_⟩
  · intro cart code ship
    exact ⟨rfl, rfl, rfl, rfl, rfl⟩
  · intro ship h cart code
    constructor
    · simp [calculateTotalWithExtras, h]
    · intro hfs; simp [calculateTotalWithExtras, h, hfs]
  · with_unfolding_all decide
  · with_unfolding_all decide
  · with_unfolding_all decide

/-- Witness for C3 at an unknown shipping key. -/
theorem calculateTotalWithExtras_pricing_witness :
    shippingOptions "teleport" = none ∧
    (calculateTotalWithExtras gatsbyCart (some "SAVE10") "teleport").shippingMethod =
      standardShipping.name :=
  ⟨rfl, (calculateTotalWithExtras_pricing.2.1 "teleport" rfl gatsbyCart (some "SAVE10")).1⟩

/-! ### C9: cart add is atomic -/

/-- C9: if `addToCart` throws any validation error, the stored cart after the
call is exactly the cart before the call — every throw happens before any
cart mutation. -/
theorem addToCart_atomic :
    ∀ (bookId : ℕ) (quantity : ℤ) (db : List Book) (cart : Cart) (e : String),
      (addToCart bookId quantity db cart).1 = .error e →
      (addToCart bookId quantity db cart).2 = cart := by
  intro bookId quantity db cart e h
  unfold addToCart at h ⊢
  cases hf : findBook db bookId with
  | none => simp
  | some b =>
    simp only [hf] at h ⊢
    split_ifs at h ⊢ with h1 h2 <;> rfl

/-- Witness for C9: the out-of-stock add attempt leaves the empty cart empty. -/
theorem addToCart_atomic_witness :
    (addToCart 3 1 bookDatabase []).1 = .error "Only 0 copies available" ∧
    (addToCart 3 1 bookDatabase []).2 = [] :=
  ⟨by with_unfolding_all decide,
    addToCart_atomic 3 1 bookDatabase [] "Only 0 copies available"
      (by with_unfolding_all decide)⟩

/-! ### C5: cart add validation order -/

/-- C5: `addToCart` checks its validations in order — NotFound, then
InvalidQuantity, then InsufficientStock against cart quantity plus live
stock with the available count in the message — and on success accumulates
onto an existing line or appends a new line holding a copy of the catalog
item; adding one copy of the stock-0 book fails with "Only 0 copies
available". -/
theorem addToCart_validation :
    (∀ (bookId : ℕ) (quantity : ℤ) (db : List Book) (cart : Cart),
      (findBook db bookId = none →
        (addToCart bookId quantity db cart).1 =
          .error ("Book with ID " ++ toString bookId ++ " not found")) ∧
      (∀ b, findBook db bookId = some b → quantity ≤ 0 →
        (addToCart bookId quantity db cart).1 =
          .error "Quantity must be greater than 0") ∧
      (∀ b, findBook db bookId = some b → 0 < quantity →
        b.stock < cartQty cart bookId + quantity →
        (addToCart bookId quantity db cart).1 =
          .error ("Only " ++ toString b.stock ++ " copies available")) ∧
      (∀ b, findBook db bookId = some b → 0 < quantity →
        cartQty cart bookId + quantity ≤ b.stock →
        (addToCart bookId quantity db cart).1 =
          .ok (if (cart.lookup bookId).isSome then bumpQty cart bookId quantity
               else cart ++ [(bookId, ⟨b, quantity⟩)]))) ∧
    (addToCart 3 1 bookDatabase []).1 = .error "Only 0 copies available" := by
  constructor
  · intro bookId quantity db cart
    refine ⟨?_, ?_, ?_, ?_⟩
    · intro h; simp [addToCart, h]
    · intro b hb hq; simp [addToCart, hb, hq]
    · intro b hb hq hs
      have hq' : ¬ quantity ≤ 0 := not_le.mpr hq
      simp [addToCart, hb, hq', hs]
    · intro b hb hq hs
      have hq' : ¬ quantity ≤ 0 := not_le.mpr hq
      have hs' : ¬ b.stock < cartQty cart bookId + quantity := not_lt.mpr hs
      simp [addToCart, hb, hq', hs']
  · with_unfolding_all decide

/-- Witness for C5: the out-of-stock branch at the seeded stock-0 book. -/
theorem addToCart_validation_witness :
    findBook bookDatabase 3 = some ⟨3, "1984", "George Orwell", 13.99, 0⟩ ∧
    (addToCart 3 1 bookDatabase []).1 =
      .error ("Only " ++ toString (⟨3, "1984", "George Orwell", 13.99, 0⟩ : Book).stock ++
        " copies available") :=
  ⟨rfl, (addToCart_validation.1 3 1 bookDatabase []).2.2.1
    ⟨3, "1984", "George Orwell", 13.99, 0⟩ rfl (by norm_num)
    (by with_unfolding_all decide)⟩

/-! ### C7: half-up rounding discipline -/

/-- C7: for carts of cent-exact prices the single deferred rounding in
`calculateTotal` agrees with rounding each currency value (subtotal, tax) at
the point of computation, and the reference figures hold: items 12.99 and
14.99 total 30.78, and subtotal 12.99 with 10% tax yields 14.29 both
deferred and pointwise. -/
theorem pricing_rounding_half_up :
    (∀ cart, centPrices cart →
      calculateTotal cart =
        round2 (rawSubtotal cart) + round2 (round2 (rawSubtotal cart) * (1/10))) ∧
    calculateTotal twoBookCart = 30.78 ∧
    calculateTotal gatsbyCart = 14.29 ∧
    round2 ((12.99 : ℚ) + round2 ((12.99 : ℚ) * (1/10))) = 14.29 := by
  refine ⟨?_, ?_, ?_, ?_⟩
  · intro cart h
    obtain ⟨M, hM⟩ := rawSubtotal_cents h
    have h1 : round2 (rawSubtotal cart) = rawSubtotal cart := round2_cents hM
    simp only [calculateTotal]
    rw [round2_add_tenth hM, h1]
  · with_unfolding_all decide
  · with_unfolding_all decide
  · with_unfolding_all decide

/-- Witness for C7 at the cent-exact 12.99 cart. -/
theorem pricing_rounding_half_up_witness :
    centPrices gatsbyCart ∧
    calculateTotal gatsbyCart =
      round2 (rawSubtotal gatsbyCart) +
        round2 (round2 (rawSubtotal gatsbyCart) * (1/10)) := by
  have hc : centPrices gatsbyCart := by
    intro pr hpr
    simp only [gatsbyCart, List.mem_singleton] at hpr
    subst hpr
    exact ⟨1299, by norm_num [gatsbyBook]⟩
  exact ⟨hc, pricing_rounding_half_up.1 gatsbyCart hc⟩

/-! ### C10: breakdown sign invariants -/

lemma applyCoupon_discount_bounds {code : Option String} {s : ℚ} {m : ℤ}
    (h0 : 0 ≤ s) (hm : (m : ℚ) = s * 100) :
    0 ≤ (applyCoupon code s).discount ∧ (applyCoupon code s).discount ≤ s := by
  cases code with
  | none => exact ⟨by norm_num [applyCoupon], by simpa [applyCoupon] using h0⟩
  | some c =>
    rcases eq_or_ne c "" with rfl | hc
    · exact ⟨by norm_num [applyCoupon], by simpa [applyCoupon] using h0⟩
    · simp only [applyCoupon, if_neg hc]
      unfold couponDatabase
      split_ifs with h1 h2 h3 h4
      · have hnlt : ¬ s < (0 : ℚ) := not_lt.mpr h0
        simp only [hnlt]
        simp only [if_false]
        refine ⟨?_, ?_⟩
        · simp only [ite_true, String.reduceEq, reduceIte]
          apply round2_nonneg; positivity
        · simp only [ite_true, String.reduceEq, reduceIte]
          exact round2_tenth_le hm h0
      · by_cases hlt : s < (50 : ℚ)
        · simp [hlt, h0]
        · push_neg at hlt
          simp only [not_lt.mpr hlt, if_false]
          refine ⟨?_, ?_⟩
          · simp only [String.reduceEq, reduceIte]
            apply round2_nonneg; positivity
          · simp only [String.reduceEq, reduceIte]
            have := round2_le_half (s * (20/100))
            linarith
      · by_cases hlt : s < (20 : ℚ)
        · simp [hlt, h0]
        · push_neg at hlt
          simp only [not_lt.mpr hlt, if_false]
          refine ⟨?_, ?_⟩
          · simp only [String.reduceEq, reduceIte]; norm_num
          · simp only [String.reduceEq, reduceIte]; linarith
      · have hnlt : ¬ s < (0 : ℚ) := not_lt.mpr h0
        simp only [hnlt, if_false]
        refine ⟨?_, ?_⟩
        · simp only [String.reduceEq, reduceIte]; norm_num
        · simp only [String.reduceEq, reduceIte]; simpa using h0
      · exact ⟨by norm_num, by simpa using h0⟩

lemma shipping_cost_nonneg (k : String) :
    0 ≤ ((shippingOptions k).getD standardShipping).cost := by
  unfold shippingOptions
  split_ifs <;> norm_num [standardShipping]

/-- C10: for carts with nonnegative prices and quantities, every field of the
`calculateTotalWithExtras` breakdown is nonnegative and the discount never
exceeds the subtotal; every static coupon either discounts at most 100% or
has a fixed value no larger than its minimum-purchase threshold. -/
theorem breakdown_nonneg :
    (∀ cart code ship,
      (∀ pr ∈ cart, 0 ≤ pr.2.book.price ∧ 0 ≤ pr.2.quantity) →
      (calculateTotalWithExtras cart code ship).discount ≤
        (calculateTotalWithExtras cart code ship).subtotal ∧
      0 ≤ (calculateTotalWithExtras cart code ship).subtotal ∧
      0 ≤ (calculateTotalWithExtras cart code ship).discount ∧
      0 ≤ (calculateTotalWithExtras cart code ship).tax ∧
      0 ≤ (calculateTotalWithExtras cart code ship).shipping ∧
      0 ≤ (calculateTotalWithExtras cart code ship).total) ∧
    (∀ u cp, couponDatabase u = some cp →
      (cp.ctype = "percentage" ∧ cp.value ≤ 100) ∨
      (cp.ctype = "fixed" ∧ cp.value ≤ cp.minPurchase) ∨
      cp.ctype = "free_shipping") := by
  constructor
  · intro cart code ship hcart
    have hs0 : 0 ≤ rawSubtotal cart := rawSubtotal_nonneg hcart
    have hsub : 0 ≤ round2 (rawSubtotal cart) := round2_nonneg hs0
    obtain ⟨m, hm⟩ := round2_den (rawSubtotal cart)
    have hbounds := @applyCoupon_discount_bounds code (round2 (rawSubtotal cart)) m hsub hm
    have hfsub : (calculateTotalWithExtras cart code ship).subtotal =
      round2 (rawSubtotal cart) := rfl
    have hfdis : (calculateTotalWithExtras cart code ship).discount =
      (if (applyCoupon code (round2 (rawSubtotal cart))).valid then
        (applyCoupon code (round2 (rawSubtotal cart))).discount else 0) := rfl
    have hftax : (calculateTotalWithExtras cart code ship).tax =
      round2 ((round2 (rawSubtotal cart) -
        (calculateTotalWithExtras cart code ship).discount) * (1/10)) := rfl
    have hfship : (calculateTotalWithExtras cart code ship).shipping =
      (if (applyCoupon code (round2 (rawSubtotal cart))).freeShipping then 0
        else ((shippingOptions ship).getD standardShipping).cost) := rfl
    have hftot : (calculateTotalWithExtras cart code ship).total =
      round2 (round2 (rawSubtotal cart) -
        (calculateTotalWithExtras cart code ship).discount +
        (calculateTotalWithExtras cart code ship).tax +
        (calculateTotalWithExtras cart code ship).shipping) := rfl
    have hd0 : 0 ≤ (calculateTotalWithExtras cart code ship).discount := by
      rw [hfdis]; split_ifs
      · exact hbounds.1
      · exact le_refl 0
    have hds : (calculateTotalWithExtras cart code ship).discount ≤
        round2 (rawSubtotal cart) := by
      rw [hfdis]; split_ifs
      · exact hbounds.2
      · exact hsub
    have htax0 : 0 ≤ (calculateTotalWithExtras cart code ship).tax := by
      rw [hftax]
      apply round2_nonneg
      have : 0 ≤ round2 (rawSubtotal cart) -
          (calculateTotalWithExtras cart code ship).discount := by linarith
      positivity
    have hship0 : 0 ≤ (calculateTotalWithExtras cart code ship).shipping := by
      rw [hfship]; split_ifs
      · exact le_refl 0
      · exact shipping_cost_nonneg ship
    refine ⟨by rw [hfsub]; exact hds, by rw [hfsub]; exact hsub, hd0, htax0, hship0, ?_⟩
    rw [hftot]
    apply round2_nonneg
    linarith
  · intro u cp h
    unfold couponDatabase at h
    split_ifs at h <;> simp only [Option.some.injEq] at h
    · subst h; exact Or.inl ⟨rfl, by norm_num⟩
    · subst h; exact Or.inl ⟨rfl, by norm_num⟩
    · subst h; exact Or.inr (Or.inl ⟨rfl, by norm_num⟩)
    · subst h; exact Or.inr (Or.inr rfl)

/-- Witness for C10 at the 12.99 cart with SAVE10 and standard shipping. -/
theorem breakdown_nonneg_witness :
    (∀ pr ∈ gatsbyCart, 0 ≤ pr.2.book.price ∧ 0 ≤ pr.2.quantity) ∧
    0 ≤ (calculateTotalWithExtras gatsbyCart (some "SAVE10") "standard").total := by
  have h : ∀ pr ∈ gatsbyCart, 0 ≤ pr.2.book.price ∧ 0 ≤ pr.2.quantity := by
    intro pr hpr
    simp only [gatsbyCart, List.mem_singleton] at hpr
    subst hpr
    constructor <;> norm_num [gatsbyBook]
  exact ⟨h, (breakdown_nonneg.1 gatsbyCart (some "SAVE10") "standard" h).2.2.2.2.2⟩

/-! ### C2: association-list and inventory-commit lemmas -/

lemma lookup_cons_eq {k : ℕ} {l : CartLine} {rest : Cart} :
    ((k, l) :: rest).lookup k = some l := by
  simp [List.lookup]

lemma lookup_cons_ne {k a : ℕ} {l : CartLine} {rest : Cart} (h : a ≠ k) :
    ((k, l) :: rest).lookup a = rest.lookup a := by
  simp [List.lookup, beq_false_of_ne h]

lemma lookup_mem {cart : Cart} {k : ℕ} {l : CartLine}
    (h : cart.lookup k = some l) : (k, l) ∈ cart := by
  induction cart with
  | nil => cases h
  | cons pr rest ih =>
    rcases pr with ⟨k', l'⟩
    by_cases hk : k = k'
    · subst hk
      rw [lookup_cons_eq] at h
      injection h with h'
      subst h'
      exact List.mem_cons_self _ _
    · rw [lookup_cons_ne hk] at h
      exact List.mem_cons_of_mem _ (ih h)

lemma lookup_eq_none_of_not_mem_keys {cart : Cart} {k : ℕ}
    (h : k ∉ cart.map Prod.fst) : cart.lookup k = none := by
  induction cart with
  | nil => rfl
  | cons pr rest ih =>
    rcases pr with ⟨k', l'⟩
    simp only [List.map_cons, List.mem_cons, not_or] at h
    rw [lookup_cons_ne h.1]
    exact ih h.2

lemma findBook_cons_eq {x : Book} {rest : List Book} {k : ℕ} (h : x.id = k) :
    findBook (x :: rest) k = some x := by
  unfold findBook
  rw [List.find?_cons_of_pos _ (by simp [h])]

lemma findBook_cons_ne {x : Book} {rest : List Book} {k : ℕ} (h : x.id ≠ k) :
    findBook (x :: rest) k = findBook rest k := by
  unfold findBook
  rw [List.find?_cons_of_neg _ (by simp [h])]

lemma findBook_none_iff {db : List Book} {k : ℕ} :
    findBook db k = none ↔ ∀ b ∈ db, b.id ≠ k := by
  unfold findBook
  rw [List.find?_eq_none]
  simp

lemma findBook_eq_of_nodup {db : List Book} {b : Book}
    (hnd : (db.map Book.id).Nodup) (hb : b ∈ db) : findBook db b.id = some b := by
  induction db with
  | nil => cases hb
  | cons x rest ih =>
    rcases List.nodup_cons.mp hnd with ⟨hx, hrest⟩
    rcases List.mem_cons.mp hb with rfl | hmem
    · exact findBook_cons_eq rfl
    · have hne : x.id ≠ b.id := by
        intro he
        exact hx (he ▸ List.mem_map_of_mem Book.id hmem)
      rw [findBook_cons_ne hne]
      exact ih hrest hmem

lemma findBook_applyLine_ne {db : List Book} {i k : ℕ} {q : ℤ} (h : i ≠ k) :
    findBook (applyLine db i q) k = findBook db k := by
  induction db with
  | nil => rfl
  | cons b rest ih =>
    unfold applyLine
    by_cases hb : b.id = i
    · rw [if_pos hb]
      have hbk : b.id ≠ k := by rw [hb]; exact h
      rw [findBook_cons_ne hbk]
      have hbk' : ({ b with stock := b.stock - q } : Book).id ≠ k := hbk
      rw [findBook_cons_ne hbk']
    · rw [if_neg hb]
      by_cases hbk : b.id = k
      · rw [findBook_cons_eq hbk, findBook_cons_eq hbk]
      · rw [findBook_cons_ne hbk, findBook_cons_ne hbk]
        exact ih

lemma applyLine_ids (db : List Book) (i : ℕ) (q : ℤ) :
    (applyLine db i q).map Book.id = db.map Book.id := by
  induction db with
  | nil => rfl
  | cons b rest ih =>
    unfold applyLine
    by_cases hb : b.id = i
    · simp [hb]
    · simp [hb, ih]

lemma map_identity (l : List Book) : l.map (fun b => b) = l := by
  induction l with
  | nil => rfl
  | cons b rest ih => simp [ih]

lemma applyLine_eq_map {db : List Book} {i : ℕ} {q : ℤ}
    (hnd : (db.map Book.id).Nodup) :
    applyLine db i q =
      db.map (fun b => if b.id = i then { b with stock := b.stock - q } else b) := by
  induction db with
  | nil => rfl
  | cons b rest ih =>
    rcases List.nodup_cons.mp hnd with ⟨hb, hrest⟩
    unfold applyLine
    by_cases hbi : b.id = i
    · rw [if_pos hbi]
      simp only [List.map_cons, if_pos hbi]
      congr 1
      have hfix : ∀ x ∈ rest,
          (if x.id = i then { x with stock := x.stock - q } else x) = x := by
        intro x hx
        rw [if_neg]
        intro hxi
        exact hb (by rw [hbi, ← hxi]; exact List.mem_map_of_mem Book.id hx)
      rw [List.map_congr_left hfix, map_identity]
    · rw [if_neg hbi]
      simp only [List.map_cons, if_neg hbi]
      congr 1
      exact ih hrest

lemma validateInventory_cons_none {k : ℕ} {line : CartLine} {rest : Cart}
    {db : List Book} (hf : findBook db k = none) :
    validateInventory ((k, line) :: rest) db =
      some ("Book with ID " ++ toString k ++ " not found in inventory") := by
  unfold validateInventory
  rw [hf]

lemma validateInventory_cons_some {k : ℕ} {line : CartLine} {rest : Cart}
    {db : List Book} {b : Book} (hf : findBook db k = some b) :
    validateInventory ((k, line) :: rest) db =
      (if b.stock < line.quantity then
        some (insufficientStockMsg b.title b.stock line.quantity)
      else validateInventory rest db) := by
  simp only [validateInventory, hf]

lemma validateInventory_none_iff {cart : Cart} {db : List Book} :
    validateInventory cart db = none ↔
      ∀ pr ∈ cart, ∃ b, findBook db pr.1 = some b ∧ pr.2.quantity ≤ b.stock := by
  induction cart with
  | nil => simp [validateInventory]
  | cons pr rest ih =>
    rcases pr with ⟨k, line⟩
    cases hf : findBook db k with
    | none =>
      rw [validateInventory_cons_none hf]
      constructor
      · intro h; cases h
      · intro h
        obtain ⟨b, hb, _⟩ := h (k, line) (List.mem_cons_self _ _)
        rw [hf] at hb; cases hb
    | some b =>
      rw [validateInventory_cons_some hf]
      by_cases hs : b.stock < line.quantity
      · rw [if_pos hs]
        constructor
        · intro h; cases h
        · intro h
          obtain ⟨b', hb', hq'⟩ := h (k, line) (List.mem_cons_self _ _)
          rw [hf] at hb'
          injection hb' with he
          subst he
          exact absurd hq' (not_le.mpr hs)
      · rw [if_neg hs, ih]
        constructor
        · intro h pr hpr
          rcases List.mem_cons.mp hpr with rfl | hmem
          · exact ⟨b, hf, not_lt.mp hs⟩
          · exact h pr hmem
        · intro h pr hpr
          exact h pr (List.mem_cons_of_mem _ hpr)

lemma validateInventory_some {cart : Cart} {db : List Book} {e : String}
    (h : validateInventory cart db = some e) :
    (∃ pr ∈ cart, findBook db pr.1 = none ∧
      e = "Book with ID " ++ toString pr.1 ++ " not found in inventory") ∨
    (∃ pr ∈ cart, ∃ b, findBook db pr.1 = some b ∧ b.stock < pr.2.quantity ∧
      e = insufficientStockMsg b.title b.stock pr.2.quantity) := by
  induction cart with
  | nil => cases h
  | cons pr rest ih =>
    rcases pr with ⟨k, line⟩
    cases hf : findBook db k with
    | none =>
      rw [validateInventory_cons_none hf] at h
      injection h with he
      exact Or.inl ⟨(k, line), List.mem_cons_self _ _, hf, he.symm⟩
    | some b =>
      rw [validateInventory_cons_some hf] at h
      by_cases hs : b.stock < line.quantity
      · rw [if_pos hs] at h
        injection h with he
        exact Or.inr ⟨(k, line), List.mem_cons_self _ _, b, hf, hs, he.symm⟩
      · rw [if_neg hs] at h
        rcases ih h with ⟨pr', hpr', rest'⟩ | ⟨pr', hpr', rest'⟩
        · exact Or.inl ⟨pr', List.mem_cons_of_mem _ hpr', rest'⟩
        · exact Or.inr ⟨pr', List.mem_cons_of_mem _ hpr', rest'⟩

lemma applyInventory_cons_none {k : ℕ} {line : CartLine} {rest : Cart}
    {db : List Book} (hf : findBook db k = none) :
    applyInventory ((k, line) :: rest) db = applyInventory rest db := by
  simp only [applyInventory, hf]

lemma applyInventory_cons_some {k : ℕ} {line : CartLine} {rest : Cart}
    {db : List Book} {b : Book} (hf : findBook db k = some b) :
    applyInventory ((k, line) :: rest) db =
      ((k, b.stock - line.quantity) ::
          (applyInventory rest (applyLine db k line.quantity)).1,
        (applyInventory rest (applyLine db k line.quantity)).2) := by
  simp only [applyInventory, hf]

lemma commitBook_of_lookup_none {cart : Cart} {b : Book}
    (h : cart.lookup b.id = none) : commitBook cart b = b := by
  unfold commitBook
  rw [h]

lemma commitBook_of_lookup_some {cart : Cart} {b : Book} {line : CartLine}
    (h : cart.lookup b.id = some line) :
    commitBook cart b = { b with stock := b.stock - line.quantity } := by
  unfold commitBook
  rw [h]

lemma applyInventory_snd_eq {cart : Cart} {db : List Book}
    (hcart : (cart.map Prod.fst).Nodup) (hdb : (db.map Book.id).Nodup) :
    (applyInventory cart db).2 = db.map (commitBook cart) := by
  induction cart generalizing db with
  | nil =>
    unfold applyInventory
    calc db = db.map (fun b => b) := (map_identity db).symm
    _ = db.map (commitBook []) := List.map_congr_left (fun b _ => rfl)
  | cons pr rest ih =>
    rcases pr with ⟨k, line⟩
    rcases List.nodup_cons.mp hcart with ⟨hk, hrest⟩
    cases hf : findBook db k with
    | none =>
      rw [applyInventory_cons_none hf, ih hrest hdb]
      apply List.map_congr_left
      intro b hb
      have hbk : b.id ≠ k := (findBook_none_iff.mp hf) b hb
      unfold commitBook
      rw [lookup_cons_ne hbk]
    | some b0 =>
      have hdb1 : ((applyLine db k line.quantity).map Book.id).Nodup := by
        rw [applyLine_ids]; exact hdb
      rw [applyInventory_cons_some hf]
      show (applyInventory rest (applyLine db k line.quantity)).2 = _
      rw [ih hrest hdb1, applyLine_eq_map hdb, List.map_map]
      apply List.map_congr_left
      intro b hb
      simp only [Function.comp_apply]
      by_cases hbk : b.id = k
      · rw [if_pos hbk]
        have h1 : ((k, line) :: rest).lookup b.id = some line := by
          rw [hbk]; exact lookup_cons_eq
        rw [commitBook_of_lookup_some h1]
        have h2 : rest.lookup ({ b with stock := b.stock - line.quantity } : Book).id = none := by
          show rest.lookup b.id = none
          rw [hbk]
          exact lookup_eq_none_of_not_mem_keys hk
        rw [commitBook_of_lookup_none h2]
      · rw [if_neg hbk]
        have h1 : ((k, line) :: rest).lookup b.id = rest.lookup b.id :=
          lookup_cons_ne hbk
        unfold commitBook
        rw [h1]

lemma filterMap_congr_mem {α β : Type} {l : List α} {f g : α → Option β}
    (h : ∀ a ∈ l, f a = g a) : l.filterMap f = l.filterMap g := by
  induction l with
  | nil => rfl
  | cons x rest ih =>
    have hx := h x (List.mem_cons_self _ _)
    have htail := ih (fun a ha => h a (List.mem_cons_of_mem _ ha))
    cases hfx : f x with
    | none =>
      have hgx : g x = none := by rw [← hx]; exact hfx
      rw [List.filterMap_cons_none hfx, List.filterMap_cons_none hgx, htail]
    | some b =>
      have hgx : g x = some b := by rw [← hx]; exact hfx
      rw [List.filterMap_cons_some hfx, List.filterMap_cons_some hgx, htail]

lemma applyInventory_fst_eq {cart : Cart} {db : List Book}
    (hcart : (cart.map Prod.fst).Nodup) :
    (applyInventory cart db).1 =
      cart.filterMap (fun pr => (findBook db pr.1).map
        (fun b => (pr.1, b.stock - pr.2.quantity))) := by
  induction cart generalizing db with
  | nil => rfl
  | cons pr rest ih =>
    rcases pr with ⟨k, line⟩
    rcases List.nodup_cons.mp hcart with ⟨hk, hrest⟩
    cases hf : findBook db k with
    | none =>
      rw [applyInventory_cons_none hf]
      have hnone : (fun pr : ℕ × CartLine => (findBook db pr.1).map
          (fun b => (pr.1, b.stock - pr.2.quantity))) (k, line) = none := by
        simp [hf]
      rw [@List.filterMap_cons_none _ _
        (fun pr : ℕ × CartLine => (findBook db pr.1).map
          (fun b => (pr.1, b.stock - pr.2.quantity))) (k, line) rest hnone]
      exact ih hrest
    | some b =>
      rw [applyInventory_cons_some hf]
      have hsome : (fun pr : ℕ × CartLine => (findBook db pr.1).map
          (fun b => (pr.1, b.stock - pr.2.quantity))) (k, line) =
          some (k, b.stock - line.quantity) := by
        simp [hf]
      rw [@List.filterMap_cons_some _ _
        (fun pr : ℕ × CartLine => (findBook db pr.1).map
          (fun b => (pr.1, b.stock - pr.2.quantity))) (k, line) rest _ hsome]
      show (k, b.stock - line.quantity) ::
          (applyInventory rest (applyLine db k line.quantity)).1 = _
      congr 1
      rw [ih hrest]
      apply filterMap_congr_mem
      intro pr hpr
      have hne : k ≠ pr.1 := by
        intro he
        subst he
        have hmem : pr.1 ∈ List.map Prod.fst rest := List.mem_map_of_mem Prod.fst hpr
        exact hk hmem
      rw [findBook_applyLine_ne hne]

/-- C2: `updateInventory` is two-phase and all-or-nothing: it succeeds
exactly when every cart line finds its book with enough live stock; any
failure throws the first offending line's message (InsufficientStock naming
title, available and requested) and, the function being pure until phase
two, decrements nothing; on success it decrements every line and returns the
id-to-new-stock mapping, preserving nonnegative stock; the seeded catalog
has nonnegative stock. -/
theorem updateInventory_two_phase :
    (∀ (cart : Cart) (db : List Book),
      ((∃ p, updateInventory cart db = .ok p) ↔
        ∀ pr ∈ cart, ∃ b, findBook db pr.1 = some b ∧ pr.2.quantity ≤ b.stock) ∧
      (∀ e, updateInventory cart db = .error e →
        (∃ pr ∈ cart, findBook db pr.1 = none ∧
          e = "Book with ID " ++ toString pr.1 ++ " not found in inventory") ∨
        (∃ pr ∈ cart, ∃ b, findBook db pr.1 = some b ∧ b.stock < pr.2.quantity ∧
          e = insufficientStockMsg b.title b.stock pr.2.quantity)) ∧
      ((cart.map Prod.fst).Nodup → (db.map Book.id).Nodup →
        ∀ upd db', updateInventory cart db = .ok (upd, db') →
          upd = cart.filterMap (fun pr => (findBook db pr.1).map
            (fun b => (pr.1, b.stock - pr.2.quantity))) ∧
          db' = db.map (commitBook cart) ∧
          ((∀ b ∈ db, 0 ≤ b.stock) → ∀ b' ∈ db', 0 ≤ b'.stock))) ∧
    (∀ b ∈ bookDatabase, 0 ≤ b.stock) := by
  constructor
  · intro cart db
    refine ⟨?_, ?_, ?_⟩
    · constructor
      · rintro ⟨p, hp⟩
        unfold updateInventory at hp
        cases hv : validateInventory cart db with
        | some e => rw [hv] at hp; cases hp
        | none => exact validateInventory_none_iff.mp hv
      · intro h
        unfold updateInventory
        rw [validateInventory_none_iff.mpr h]
        exact ⟨applyInventory cart db, rfl⟩
    · intro e he
      unfold updateInventory at he
      cases hv : validateInventory cart db with
      | none => rw [hv] at he; cases he
      | some e' =>
        rw [hv] at he
        injection he with he'
        subst he'
        exact validateInventory_some hv
    · intro hcart hdb upd db' hok
      unfold updateInventory at hok
      cases hv : validateInventory cart db with
      | some e => rw [hv] at hok; cases hok
      | none =>
        rw [hv] at hok
        injection hok with h1
        have hupd : upd = (applyInventory cart db).1 := by rw [h1]
        have hdb' : db' = (applyInventory cart db).2 := by rw [h1]
        refine ⟨?_, ?_, ?_⟩
        · rw [hupd, applyInventory_fst_eq hcart]
        · rw [hdb', applyInventory_snd_eq hcart hdb]
        · intro hnn b' hb'
          rw [hdb', applyInventory_snd_eq hcart hdb] at hb'
          obtain ⟨b, hb, rfl⟩ := List.mem_map.mp hb'
          cases hl : cart.lookup b.id with
          | none =>
            rw [commitBook_of_lookup_none hl]
            exact hnn b hb
          | some line =>
            rw [commitBook_of_lookup_some hl]
            have hmem : (b.id, line) ∈ cart := lookup_mem hl
            obtain ⟨b0, hb0, hq⟩ := (validateInventory_none_iff.mp hv) (b.id, line) hmem
            have hfb : findBook db b.id = some b := findBook_eq_of_nodup hdb hb
            rw [hfb] at hb0
            injection hb0 with hbe
            subst hbe
            show 0 ≤ b.stock - line.quantity
            have hq' : line.quantity ≤ b.stock := hq
            omega
  · with_unfolding_all decide

/-- Witness for C2: committing two copies of the 12.99 book against the
seeded catalog. -/
theorem updateInventory_two_phase_witness :
    updateInventory [(1, ⟨gatsbyBook, 2⟩)] bookDatabase =
      .ok ([(1, 3)],
        [⟨1, "The Great Gatsby", "F. Scott Fitzgerald", 12.99, 3⟩,
         ⟨2, "To Kill a Mockingbird", "Harper Lee", 14.99, 3⟩,
         ⟨3, "1984", "George Orwell", 13.99, 0⟩,
         ⟨4, "Pride and Prejudice", "Jane Austen", 11.99, 7⟩,
         ⟨5, "The Catcher in the Rye", "J.D. Salinger", 12.49, 4⟩,
         ⟨6, "Brave New World", "Aldous Huxley", 13.49, 2⟩]) ∧
    (∀ b' ∈ [⟨1, "The Great Gatsby", "F. Scott Fitzgerald", 12.99, 3⟩,
         ⟨2, "To Kill a Mockingbird", "Harper Lee", 14.99, 3⟩,
         ⟨3, "1984", "George Orwell", 13.99, 0⟩,
         ⟨4, "Pride and Prejudice", "Jane Austen", 11.99, 7⟩,
         ⟨5, "The Catcher in the Rye", "J.D. Salinger", 12.49, 4⟩,
         (⟨6, "Brave New World", "Aldous Huxley", 13.49, 2⟩ : Book)], 0 ≤ b'.stock) :=
  ⟨by with_unfolding_all decide,
    ((updateInventory_two_phase.1 [(1, ⟨gatsbyBook, 2⟩)] bookDatabase).2.2
      (by decide) (by decide) [(1, 3)] _
      (by with_unfolding_all decide)).2.2 (by decide)⟩

/-! ### C1 and C6: orchestrator failure behaviour -/

lemma processPayment_ok_success {t : ℚ} {m : String} {ps : Bool} {now : ℕ}
    {rand : String} {p : PaymentResult}
    (h : processPayment t m ps now rand = .ok p) : p.success = ps := by
  unfold processPayment at h
  split_ifs at h with h1 h2 h3
  · injection h with h'
    subst h'
    exact h3.symm
  · injection h with h'
    subst h'
    show false = ps
    cases ps
    · rfl
    · exact absurd rfl h3

lemma completePurchase_cases (q : String) (bookId : ℕ) (qty : ℤ) (pm : String)
    (ps : Bool) (now : ℕ) (rand : String) (st : StoreState) :
    (completePurchase q bookId qty pm ps now rand st).1.success = true ∨
    ∃ e, completePurchase q bookId qty pm ps now rand st = (failResult e, st) := by
  unfold completePurchase
  repeat' split
  all_goals first
    | exact Or.inl rfl
    | exact Or.inr ⟨_, rfl⟩

lemma completePurchaseWithExtras_cases (q : String) (bookId : ℕ) (qty : ℤ)
    (pm : String) (opts : PurchaseOptions) (ps : Bool) (now : ℕ) (rand : String)
    (st : StoreState) :
    (completePurchaseWithExtras q bookId qty pm opts ps now rand st).1.success = true ∨
    ∃ e, completePurchaseWithExtras q bookId qty pm opts ps now rand st =
      (failResultX e, st) := by
  unfold completePurchaseWithExtras
  repeat' split
  all_goals first
    | exact Or.inl rfl
    | exact Or.inr ⟨_, rfl⟩

/-- C1: whenever `completePurchase` or `completePurchaseWithExtras` fails at
any stage, it returns the uniform `{success:false, error, message:"Purchase
failed"}` object, the session cart (and the catalog) is exactly as before
the attempt, and — both functions being total — no exception escapes. -/
theorem purchase_failure_uniform :
    (∀ q bookId qty pm ps now rand st,
      (completePurchase q bookId qty pm ps now rand st).1.success = false →
        (completePurchase q bookId qty pm ps now rand st).2.shoppingCart =
          st.shoppingCart ∧
        (completePurchase q bookId qty pm ps now rand st).2.bookDatabase =
          st.bookDatabase ∧
        (completePurchase q bookId qty pm ps now rand st).1.message =
          "Purchase failed" ∧
        ∃ e, (completePurchase q bookId qty pm ps now rand st).1 = failResult e) ∧
    (∀ q bookId qty pm opts ps now rand st,
      (completePurchaseWithExtras q bookId qty pm opts ps now rand st).1.success =
          false →
        (completePurchaseWithExtras q bookId qty pm opts ps now rand st).2.shoppingCart =
          st.shoppingCart ∧
        (completePurchaseWithExtras q bookId qty pm opts ps now rand st).2.bookDatabase =
          st.bookDatabase ∧
        (completePurchaseWithExtras q bookId qty pm opts ps now rand st).2.emailLog =
          st.emailLog ∧
        (completePurchaseWithExtras q bookId qty pm opts ps now rand st).1.message =
          "Purchase failed" ∧
        ∃ e, (completePurchaseWithExtras q bookId qty pm opts ps now rand st).1 =
          failResultX e) := by
  constructor
  · intro q bookId qty pm ps now rand st h
    rcases completePurchase_cases q bookId qty pm ps now rand st with hs | ⟨e, he⟩
    · rw [h] at hs; cases hs
    · rw [he]
      exact ⟨rfl, rfl, rfl, e, rfl⟩
  · intro q bookId qty pm opts ps now rand st h
    rcases completePurchaseWithExtras_cases q bookId qty pm opts ps now rand st with
      hs | ⟨e, he⟩
    · rw [h] at hs; cases hs
    · rw [he]
      exact ⟨rfl, rfl, rfl, rfl, e, rfl⟩

/-- Witness for C1: a search with no results and a rejected payment, both on
the pristine state. -/
theorem purchase_failure_uniform_witness :
    ((completePurchase "zzzz" 1 1 "credit" true 0 "r" initialState).1.success = false ∧
      (completePurchase "zzzz" 1 1 "credit" true 0 "r" initialState).1.message =
        "Purchase failed") ∧
    ((completePurchaseWithExtras "gatsby" 1 1 "credit"
        ⟨some "SAVE10", "standard", some "a@b.com"⟩ false 0 "r"
        initialState).1.success = false ∧
      (completePurchaseWithExtras "gatsby" 1 1 "credit"
        ⟨some "SAVE10", "standard", some "a@b.com"⟩ false 0 "r"
        initialState).2.shoppingCart = initialState.shoppingCart) :=
  ⟨⟨by with_unfolding_all decide,
    (purchase_failure_uniform.1 "zzzz" 1 1 "credit" true 0 "r" initialState
      (by with_unfolding_all decide)).2.2.1⟩,
   ⟨by with_unfolding_all decide,
    (purchase_failure_uniform.2 "gatsby" 1 1 "credit"
      ⟨some "SAVE10", "standard", some "a@b.com"⟩ false 0 "r" initialState
      (by with_unfolding_all decide)).1⟩⟩

lemma completePurchaseWithExtras_payFail (q : String) (bookId : ℕ) (qty : ℤ)
    (pm : String) (opts : PurchaseOptions) (now : ℕ) (rand : String)
    (st : StoreState) :
    ∃ e, completePurchaseWithExtras q bookId qty pm opts false now rand st =
      (failResultX e, st) := by
  unfold completePurchaseWithExtras
  repeat' split
  all_goals first
    | exact ⟨_, rfl⟩
    | exact absurd (processPayment_ok_success (by assumption)) (by assumption)

/-- C6: when the injected randomness makes the payment step reject, the
extended purchase fails with no external side effects — the catalog and the
email log are exactly as before the attempt, even when a coupon code and a
customer email were supplied. -/
theorem payment_rejection_frame :
    ∀ q bookId qty pm opts now rand st,
      (completePurchaseWithExtras q bookId qty pm opts false now rand st).1.success =
        false ∧
      (completePurchaseWithExtras q bookId qty pm opts false now rand st).2.bookDatabase =
        st.bookDatabase ∧
      (completePurchaseWithExtras q bookId qty pm opts false now rand st).2.emailLog =
        st.emailLog := by
  intro q bookId qty pm opts now rand st
  obtain ⟨e, he⟩ := completePurchaseWithExtras_payFail q bookId qty pm opts now rand st
  rw [he]
  exact ⟨rfl, rfl, rfl⟩

/-! ### C8: transaction id generation -/

lemma natDigitsAux_foldl (fuel : ℕ) : ∀ n acc, n ≤ fuel →
    (natDigitsAux fuel n).foldl (fun a c => a * 10 + (c.toNat - 48)) acc =
      acc * 10 ^ (natDigitsAux fuel n).length + n := by
  induction fuel with
  | zero =>
    intro n acc h
    have hn : n = 0 := Nat.le_zero.mp h
    subst hn
    simp [natDigitsAux]
  | succ fuel ih =>
    intro n acc h
    by_cases hn : n = 0
    · subst hn
      simp [natDigitsAux]
    · have hstep : natDigitsAux (fuel + 1) n =
          natDigitsAux fuel (n / 10) ++ [Nat.digitChar (n % 10)] := by
        simp [natDigitsAux, hn]
      rw [hstep, List.foldl_append]
      have hle : n / 10 ≤ fuel := by omega
      rw [ih (n / 10) acc hle]
      have h10 : n % 10 < 10 := Nat.mod_lt _ (by norm_num)
      have hdc : ∀ d < 10, (Nat.digitChar d).toNat - 48 = d := by decide
      simp only [List.foldl_cons, List.foldl_nil, List.length_append,
        List.length_cons, List.length_nil, Nat.zero_add]
      rw [hdc _ h10]
      have h2 : (n / 10) * 10 + n % 10 = n := by omega
      calc (acc * 10 ^ (natDigitsAux fuel (n / 10)).length + n / 10) * 10 + n % 10
          = acc * (10 ^ (natDigitsAux fuel (n / 10)).length * 10) +
            ((n / 10) * 10 + n % 10) := by ring
      _ = acc * 10 ^ ((natDigitsAux fuel (n / 10)).length + 1) + n := by
          rw [h2, pow_succ]

lemma digitsVal_natDecimal (n : ℕ) : digitsVal (natDecimal n).data = n := by
  by_cases hn : n = 0
  · subst hn
    decide
  · have hstep : natDecimal n = ⟨natDigitsAux n n⟩ := by simp [natDecimal, hn]
    rw [hstep]
    show (natDigitsAux n n).foldl _ 0 = n
    rw [natDigitsAux_foldl n n 0 le_rfl]
    simp

lemma natDecimal_inj {a b : ℕ} (h : natDecimal a = natDecimal b) : a = b := by
  have ha := digitsVal_natDecimal a
  have hb := digitsVal_natDecimal b
  rw [h] at ha
  exact ha.symm.trans hb

lemma hyphen_not_mem_natDigitsAux (fuel : ℕ) : ∀ n, ('-' : Char) ∉ natDigitsAux fuel n := by
  induction fuel with
  | zero => intro n; simp [natDigitsAux]
  | succ fuel ih =>
    intro n
    by_cases hn : n = 0
    · simp [natDigitsAux, hn]
    · simp only [natDigitsAux, if_neg hn, List.mem_append, List.mem_singleton]
      rintro (h | h)
      · exact ih _ h
      · have h10 : n % 10 < 10 := Nat.mod_lt _ (by norm_num)
        have hdc : ∀ d < 10, Nat.digitChar d ≠ '-' := by decide
        exact hdc _ h10 h.symm

lemma hyphen_not_mem_natDecimal (n : ℕ) : ('-' : Char) ∉ (natDecimal n).data := by
  unfold natDecimal
  by_cases hn : n = 0
  · rw [if_pos hn]; decide
  · rw [if_neg hn]; exact hyphen_not_mem_natDigitsAux n n

lemma append_sep_inj {l1 l2 t1 t2 : List Char}
    (h1 : ('-' : Char) ∉ l1) (h2 : ('-' : Char) ∉ l2)
    (h : l1 ++ '-' :: t1 = l2 ++ '-' :: t2) : l1 = l2 ∧ t1 = t2 := by
  induction l1 generalizing l2 with
  | nil =>
    cases l2 with
    | nil => simpa using h
    | cons c l2' =>
      simp only [List.nil_append, List.cons_append, List.cons.injEq] at h
      exfalso
      apply h2
      rw [← h.1]
      exact List.mem_cons_self _ _
  | cons c l1' ih =>
    cases l2 with
    | nil =>
      simp only [List.cons_append, List.nil_append, List.cons.injEq] at h
      exfalso
      apply h1
      rw [h.1]
      exact List.mem_cons_self _ _
    | cons d l2' =>
      simp only [List.cons_append, List.cons.injEq] at h
      obtain ⟨hcd, hrest⟩ := h
      have h1' : ('-' : Char) ∉ l1' := fun hm => h1 (List.mem_cons_of_mem _ hm)
      have h2' : ('-' : Char) ∉ l2' := fun hm => h2 (List.mem_cons_of_mem _ hm)
      obtain ⟨he, ht⟩ := ih h1' h2' hrest
      exact ⟨by rw [hcd, he], ht⟩

lemma string_data_inj {s t : String} (h : s.data = t.data) : s = t := by
  cases s
  cases t
  exact congrArg String.mk h

lemma mkTxnId_inj {n1 n2 : ℕ} {r1 r2 : String}
    (h : mkTxnId n1 r1 = mkTxnId n2 r2) : n1 = n2 ∧ r1 = r2 := by
  unfold mkTxnId at h
  have hdata := congrArg String.data h
  simp only [String.data_append, List.append_assoc,
    show ("-" : String).data = ['-'] from rfl, List.singleton_append] at hdata
  have hmid := List.append_cancel_left hdata
  obtain ⟨hd, hr⟩ := append_sep_inj (hyphen_not_mem_natDecimal n1)
    (hyphen_not_mem_natDecimal n2) hmid
  exact ⟨natDecimal_inj (string_data_inj hd), string_data_inj hr⟩

lemma processPayment_ok_txn {t : ℚ} {m : String} {now : ℕ} {rand : String}
    {p : PaymentResult} (h : processPayment t m true now rand = .ok p) :
    p.transactionId = some (mkTxnId now rand) := by
  unfold processPayment at h
  split_ifs at h with h1 h2 h3
  · injection h with h'
    subst h'
    rfl
  · exact absurd rfl h3

/-- C8 counterexample: the code combines only the millisecond timestamp and
the raw random draw, with no counter; two accepted charges made in the same
instant with the same random draw return the identical transaction id
"TXN-5-abc", refuting guaranteed uniqueness. -/
theorem txn_id_collision :
    processPayment 10 "credit" true 5 "abc" =
      .ok ⟨true, some "TXN-5-abc"⟩ ∧
    processPayment 20 "debit" true 5 "abc" =
      .ok ⟨true, some "TXN-5-abc"⟩ := by
  constructor <;> with_unfolding_all decide

/-- C8 (amended): transaction ids combine the timestamp and the random
component, so two accepted charges receive distinct ids whenever the
timestamp or the random draw differs; ids can only collide when both
components repeat. -/
theorem txn_id_distinct :
    ∀ (t1 t2 : ℚ) (m1 m2 : String) (n1 n2 : ℕ) (r1 r2 : String)
      (p1 p2 : PaymentResult),
      processPayment t1 m1 true n1 r1 = .ok p1 →
      processPayment t2 m2 true n2 r2 = .ok p2 →
      (n1 ≠ n2 ∨ r1 ≠ r2) →
      p1.transactionId ≠ p2.transactionId := by
  intro t1 t2 m1 m2 n1 n2 r1 r2 p1 p2 h1 h2 hne heq
  rw [processPayment_ok_txn h1, processPayment_ok_txn h2] at heq
  injection heq with heq'
  obtain ⟨hn, hr⟩ := mkTxnId_inj heq'
  rcases hne with hne | hne
  · exact hne hn
  · exact hne hr

/-- Witness for the amended C8 at two accepted charges whose random
components differ. -/
theorem txn_id_distinct_witness :
    processPayment 10 "credit" true 5 "abc" = .ok ⟨true, some "TXN-5-abc"⟩ ∧
    processPayment 20 "debit" true 5 "xyz" = .ok ⟨true, some "TXN-5-xyz"⟩ ∧
    (⟨true, some "TXN-5-abc"⟩ : PaymentResult).transactionId ≠
      (⟨true, some "TXN-5-xyz"⟩ : PaymentResult).transactionId :=
  ⟨by with_unfolding_all decide, by with_unfolding_all decide,
    txn_id_distinct 10 20 "credit" "debit" 5 5 "abc" "xyz"
      ⟨true, some "TXN-5-abc"⟩ ⟨true, some "TXN-5-xyz"⟩
      (by with_unfolding_all decide) (by with_unfolding_all decide)
      (Or.inr (by decide))⟩

end Bookstore
